import Mathlib

/-!
Verification development for the mock-interview backend (src/server.js).

The file shallowly embeds the request handlers of `server.js`:

* the `/chat` endpoint (lines 120-199), including its in-memory session
  store `chatHistories`, its request validation, its two history-building
  strategies (first contact with an empty `userResponse` versus an ongoing
  conversation), its streamed-reply accumulation loop, its commit of the
  new turns, and its error translation in the `catch` block;
* the stream-accumulation loop of the `/interview` endpoint
  (lines 276-293), which carries the `candidates/content/parts` fallback
  extraction.

Modelling decisions, each tied to the source:

* A stored turn is `{ role, text }`; `role` is the literal `'user'` or
  `'model'` string of the source, modelled as the inductive `Role`
  (`Role.model` is what the specification calls the `assistant` role).
* The `chatHistories` JavaScript `Map` is an association list from the
  session-id string to the list of turns; `storeGet`/`storeSet` are
  `Map.get`/`Map.set`.
* JavaScript aliasing is modelled explicitly: `chatHistories.get(sessionId)`
  returns a reference to the stored array, so the in-place
  `currentSessionHistory.push(...)` of line 155 mutates the stored history
  immediately whenever the map already holds an entry for the session.
  The handler therefore updates the store at the push whenever the lookup
  hit an existing entry (`aliased`), before the external call happens.
* The external model is an oracle argument `AIResult`: either a stream of
  chunks (`success`) or a thrown error carrying `error.message`
  (`failure`).  A streamed chunk's `text` property is modelled at the
  granularity the two loops inspect: a function returning a string, a
  function returning a non-string (whose JavaScript string coercion is
  recorded), a plain string, or anything else; `altText` is the value of
  `chunk.candidates[0].content.parts[0].text` when that nested path exists.
* In the `/chat` loop, `chunk.text()` on a non-function `text` property
  would throw a `TypeError`; the accumulator returns `none` for that case
  and the handler routes it through the `catch` block, like the source.
-/

inductive Role
  | user
  | model
deriving DecidableEq

structure Turn where
  role : Role
  text : String
deriving DecidableEq

/-- The in-memory `chatHistories` map of server.js line 28, as an
association list from session id to stored transcript. -/
abbrev Store := List (String × List Turn)

/-- `Map.get`: first binding for the key, if any. -/
def storeGet : Store → String → Option (List Turn)
  | [], _ => none
  | (k, v) :: rest, s => if k = s then some v else storeGet rest s

/-- `Map.set`: replace the binding for the key, or append a fresh one. -/
def storeSet : Store → String → List Turn → Store
  | [], s, v => [(s, v)]
  | (k, w) :: rest, s, v =>
      if k = s then (k, v) :: rest else (k, w) :: storeSet rest s v

/-- The shape of a streamed chunk's `text` property, at the granularity
inspected by the two accumulation loops of server.js. -/
inductive TextField
  /-- `text` is a function; `returnsString` records whether calling it
  yields a string, and `value` is the string appended by `+=` (the string
  result itself, or the JavaScript coercion of a non-string result). -/
  | fn (returnsString : Bool) (value : String)
  /-- `text` is already a plain string. -/
  | str (value : String)
  /-- `text` is neither a function nor a string. -/
  | other
deriving DecidableEq

/-- One streamed reply fragment.  `altText` is
`candidates[0].content.parts[0].text` when the nested path of
server.js lines 287-291 exists, `none` when any of its guards fail. -/
structure Chunk where
  text : TextField
  altText : Option String
deriving DecidableEq

/-- Outcome of the single external model call a handler invocation makes:
either the full stream of chunks, or a thrown error with its
`error.message`.  A mid-stream failure is a `failure`, since the handler
commits nothing before the stream is exhausted. -/
inductive AIResult
  | success (chunks : List Chunk)
  | failure (message : String)
deriving DecidableEq

/-- The parsed request body `{ sessionId, userResponse }`; `none` models a
missing/undefined field. -/
structure ChatRequest where
  sessionId : Option String
  userResponse : Option String
deriving DecidableEq

/-- One entry of the history handed to `model.startChat`, after the
conversion `{ role: item.role, parts: [{ text: item.text }] }` of
server.js lines 159-162. -/
structure ApiTurn where
  role : Role
  parts : List String
deriving DecidableEq

/-- The per-item conversion of server.js lines 159-162. -/
def toApiTurn (t : Turn) : ApiTurn := ⟨t.role, [t.text]⟩

/-- The arguments of the outgoing `startChat`/`sendMessageStream` pair:
the prior history handed to `startChat` and the new message string. -/
structure OutgoingCall where
  history : List ApiTurn
  message : String
deriving DecidableEq

/-- The JSON body of the HTTP reply: `{ response, history }` on success,
`{ error }` on failure. -/
inductive HttpBody
  | ok (response : String) (history : List Turn)
  | err (error : String)
deriving DecidableEq

structure HttpResp where
  status : Nat
  body : HttpBody
deriving DecidableEq

/-- Everything observable about one handler invocation: the store after
the call, the HTTP reply, and the external call made (`none` when
validation failed before any external call). -/
structure StepResult where
  store : Store
  resp : HttpResp
  call : Option OutgoingCall
deriving DecidableEq

/-- An apostrophe character, for building the literal strings of the
source without character-literal noise. -/
def apostrophe : String := String.singleton (Char.ofNat 39)

/-- The synthetic opening message of server.js lines 147 and 181. -/
def syntheticOpening : String := "Start conversation with Tina."

/-- The 400 body text of server.js line 125. -/
def validationError : String := "Missing sessionId or userResponse in request body."

/-- The default 500 body text of server.js line 193. -/
def genericFailureMsg : String := "Failed to get a response from Tina. Please try again."

/-- The substring tested by `error.message.includes(...)` on
server.js line 194. -/
def roleOrderingSubstr : String :=
  "First content should be with role " ++ apostrophe ++ "user" ++ apostrophe ++ ", got model"

/-- The distinguished 500 body text of server.js line 195. -/
def historySyncMsg : String :=
  "There was an internal chat history synchronization issue. Please refresh the page and try again."

/-- The `TypeError` message raised when `chunk.text` is not callable in the
`/chat` accumulation loop (line 169); it reaches the same `catch` block. -/
def accumThrowMsg : String := "chunk.text is not a function"

/-- Whether `pat` starts `s`, on character lists. -/
def charsStart : List Char → List Char → Bool
  | [], _ => true
  | _ :: _, [] => false
  | p :: ps, a :: as => p == a && charsStart ps as

/-- Whether `pat` occurs contiguously inside `s`, on character lists. -/
def charsHaveSub : List Char → List Char → Bool
  | pat, [] => pat.isEmpty
  | pat, a :: as => charsStart pat (a :: as) || charsHaveSub pat as

/-- JavaScript `s.includes(pat)` (substring containment). -/
def strContains (s pat : String) : Bool := charsHaveSub pat.data s.data

/-- The error translation of the `catch` block, server.js lines 192-196. -/
def selectErr (m : String) : String :=
  if strContains m roleOrderingSubstr then historySyncMsg else genericFailureMsg

/-- The `/chat` accumulation loop of server.js lines 168-175:
`chunk.text()` is called, a string result is appended, a non-string result
is warned about and skipped; if `chunk.text` is not callable the loop
throws (`none`).  Returns the accumulated text and the warning count. -/
def chatAccum : String → Nat → List Chunk → Option (String × Nat)
  | acc, warns, [] => some (acc, warns)
  | acc, warns, c :: rest =>
    match c.text with
    | TextField.fn true v => chatAccum (acc ++ v) warns rest
    | TextField.fn false _ => chatAccum acc (warns + 1) rest
    | _ => none

/-- The `/interview` accumulation loop of server.js lines 276-293: a
function-valued `text` is called and its result appended, a string-valued
`text` is appended directly, anything else is warned about and recovered
through `candidates[0].content.parts[0].text` when that path exists,
contributing nothing otherwise.  Returns text and warning count. -/
def interviewAccum : String → Nat → List Chunk → String × Nat
  | acc, warns, [] => (acc, warns)
  | acc, warns, c :: rest =>
    match c.text with
    | TextField.fn _ v => interviewAccum (acc ++ v) warns rest
    | TextField.str v => interviewAccum (acc ++ v) warns rest
    | TextField.other =>
      match c.altText with
      | some t => interviewAccum (acc ++ t) (warns + 1) rest
      | none => interviewAccum acc (warns + 1) rest

/-- The text the `/chat` loop extracts from a single fragment: the string
result of `chunk.text()`, or the empty string for a warned fragment. -/
def extractedText (c : Chunk) : String :=
  match c.text with
  | TextField.fn true v => v
  | _ => ""

/-- Concatenation, in arrival order with no separators, of the text
extracted from every fragment. -/
def concatExtract (cs : List Chunk) : String :=
  cs.foldl (fun a c => a ++ extractedText c) ""

/-- The `/chat` handler of server.js lines 120-199, as a function of the
store, the parsed request body and the external-call outcome. -/
def chatHandler (st : Store) (req : ChatRequest) (ai : AIResult) : StepResult :=
  match req.sessionId, req.userResponse with
  | some sid, some u =>
    if sid = "" then
      ⟨st, ⟨400, HttpBody.err validationError⟩, none⟩
    else
      let hist0 := (storeGet st sid).getD []
      let aliased := (storeGet st sid).isSome
      if hist0 = [] ∧ u = "" then
        let call : OutgoingCall := ⟨[], syntheticOpening⟩
        match ai with
        | AIResult.failure m =>
            ⟨st, ⟨500, HttpBody.err (selectErr m)⟩, some call⟩
        | AIResult.success chunks =>
          match chatAccum "" 0 chunks with
          | none =>
              ⟨st, ⟨500, HttpBody.err (selectErr accumThrowMsg)⟩, some call⟩
          | some (resp, _) =>
            let newHist := [⟨Role.user, syntheticOpening⟩, ⟨Role.model, resp⟩]
            ⟨storeSet st sid newHist, ⟨200, HttpBody.ok resp newHist⟩, some call⟩
      else
        let hist1 := hist0 ++ [⟨Role.user, u⟩]
        let mid := if aliased then storeSet st sid hist1 else st
        let call : OutgoingCall := ⟨hist1.map toApiTurn, u⟩
        match ai with
        | AIResult.failure m =>
            ⟨mid, ⟨500, HttpBody.err (selectErr m)⟩, some call⟩
        | AIResult.success chunks =>
          match chatAccum "" 0 chunks with
          | none =>
              ⟨mid, ⟨500, HttpBody.err (selectErr accumThrowMsg)⟩, some call⟩
          | some (resp, _) =>
            let newHist := hist1 ++ [⟨Role.model, resp⟩]
            ⟨storeSet st sid newHist, ⟨200, HttpBody.ok resp newHist⟩, some call⟩
  | _, _ => ⟨st, ⟨400, HttpBody.err validationError⟩, none⟩

/-- One inbound request together with its external-call outcome. -/
structure Event where
  req : ChatRequest
  ai : AIResult
deriving DecidableEq

/-- The store after handling one event. -/
def stepStore (st : Store) (e : Event) : Store :=
  (chatHandler st e.req e.ai).store

/-- The store after a whole trace of events, starting from the empty map. -/
def runTrace (evs : List Event) : Store :=
  evs.foldl stepStore []

/-- Whether an event is a successful turn: validation passes and the
external call yields a stream the `/chat` loop accumulates without
throwing.  This does not depend on the store: both phases commit on such
an outcome. -/
def eventOK (e : Event) : Bool :=
  match e.req.sessionId, e.req.userResponse, e.ai with
  | some sid, some _, AIResult.success chunks =>
      !(decide (sid = "")) && (chatAccum "" 0 chunks).isSome
  | _, _, _ => false

/-- The stored history of session `s` after a trace. -/
def historyOf (evs : List Event) (s : String) : List Turn :=
  (storeGet (runTrace evs) s).getD []

/-- The role opposite to `r`. -/
def flipRole : Role → Role
  | Role.user => Role.model
  | Role.model => Role.user

/-- Strict role alternation of a transcript, expecting `r` first. -/
def alternatingFrom : Role → List Turn → Bool
  | _, [] => true
  | r, t :: rest => decide (t.role = r) && alternatingFrom (flipRole r) rest

/-- The role expected after consuming `n` strictly-alternating turns
starting from `r`. -/
def roleAfter : Role → Nat → Role
  | r, 0 => r
  | r, n + 1 => roleAfter (flipRole r) n

/-- Concrete two-turn trace on session `s1`. -/
def c2TraceEvents : List Event :=
  [⟨⟨some "s1", some ""⟩, AIResult.success [⟨TextField.fn true "Hello", none⟩]⟩,
   ⟨⟨some "s1", some "Yes"⟩, AIResult.success [⟨TextField.fn true "Great", none⟩]⟩]

/-- A degraded fragment: `chunk.text()` returns a non-string, while the
nested `candidates[0].content.parts[0].text` path holds recoverable text. -/
def c5Chunk : Chunk := ⟨TextField.fn false "o", some "recovered"⟩

/-- A stored transcript from one earlier successful turn. -/
def c1PreHistory : List Turn :=
  [⟨Role.user, syntheticOpening⟩, ⟨Role.model, "Hi, I am Tina."⟩]

/-- A store holding session `s1` with that transcript. -/
def c1Store : Store := [("s1", c1PreHistory)]

/-- Concrete stream for the C6 witness. -/
def c6Chunks : List Chunk :=
  [⟨TextField.fn true "A", none⟩, ⟨TextField.fn false "x", none⟩, ⟨TextField.fn true "B", none⟩]

/-- The history committed by the C6 witness call. -/
def c6Hist : List Turn :=
  [⟨Role.user, syntheticOpening⟩, ⟨Role.model, "AB"⟩]

/-! ## Store lemmas -/

theorem storeGet_set_self (st : Store) (k : String) (v : List Turn) :
    storeGet (storeSet st k v) k = some v := by
  induction st with
  | nil => simp [storeSet, storeGet]
  | cons p rest ih =>
    obtain ⟨k0, v0⟩ := p
    by_cases h : k0 = k
    · simp [storeSet, storeGet, h]
    · simp [storeSet, storeGet, h, ih]

theorem storeGet_set_ne (st : Store) (k k2 : String) (v : List Turn) (h : k2 ≠ k) :
    storeGet (storeSet st k v) k2 = storeGet st k2 := by
  induction st with
  | nil =>
    simp only [storeSet, storeGet]
    rw [if_neg fun hh => h hh.symm]
  | cons p rest ih =>
    obtain ⟨k0, v0⟩ := p
    by_cases hk : k0 = k
    · subst hk
      simp only [storeSet, if_pos rfl, storeGet]
      rw [if_neg (fun hh => h hh.symm), if_neg (fun hh => h hh.symm)]
    · simp only [storeSet, if_neg hk, storeGet]
      by_cases hk2 : k0 = k2
      · simp [hk2]
      · simp [hk2, ih]

/-! ## Alternation lemmas -/

theorem flipRole_flipRole (r : Role) : flipRole (flipRole r) = r := by
  cases r <;> rfl

theorem roleAfter_eq (n : Nat) : ∀ r : Role,
    roleAfter r n = if n % 2 = 0 then r else flipRole r := by
  induction n with
  | zero => intro r; simp [roleAfter]
  | succ m ih =>
    intro r
    rw [roleAfter, ih (flipRole r)]
    rcases Nat.mod_two_eq_zero_or_one m with h | h
    · rw [if_pos h, if_neg (by omega)]
    · rw [if_neg (by omega), if_pos (by omega), flipRole_flipRole]

theorem alternatingFrom_append (xs ys : List Turn) : ∀ r : Role,
    alternatingFrom r (xs ++ ys) =
      (alternatingFrom r xs && alternatingFrom (roleAfter r xs.length) ys) := by
  induction xs with
  | nil => intro r; simp [alternatingFrom, roleAfter]
  | cons t rest ih =>
    intro r
    have h1 : alternatingFrom r ((t :: rest) ++ ys)
        = (decide (t.role = r) && alternatingFrom (flipRole r) (rest ++ ys)) := rfl
    have h2 : alternatingFrom r (t :: rest)
        = (decide (t.role = r) && alternatingFrom (flipRole r) rest) := rfl
    have h3 : roleAfter r (t :: rest).length = roleAfter (flipRole r) rest.length := rfl
    rw [h1, h2, h3, ih (flipRole r), Bool.and_assoc]

theorem alternatingFrom_append_pair (h : List Turn) (u r : String)
    (h1 : alternatingFrom Role.user h = true) (h2 : h.length % 2 = 0) :
    alternatingFrom Role.user (h ++ [⟨Role.user, u⟩, ⟨Role.model, r⟩]) = true := by
  rw [alternatingFrom_append, roleAfter_eq, if_pos h2, h1]
  simp [alternatingFrom, flipRole]

/-! ## Handler step lemmas -/

theorem chatAccum_isSome_exists (chunks : List Chunk)
    (h : (chatAccum "" 0 chunks).isSome = true) :
    ∃ r w, chatAccum "" 0 chunks = some (r, w) := by
  rcases hacc : chatAccum "" 0 chunks with _ | ⟨r, w⟩
  · rw [hacc] at h; simp at h
  · exact ⟨r, w, rfl⟩

theorem stepStore_ok (st : Store) (e : Event) (s : String)
    (hok : eventOK e = true) (hs : e.req.sessionId = some s) :
    ∃ u r, storeGet (stepStore st e) s =
      some ((storeGet st s).getD [] ++ [⟨Role.user, u⟩, ⟨Role.model, r⟩]) := by
  obtain ⟨⟨sid?, u?⟩, ai⟩ := e
  simp only [eventOK] at hok
  simp only at hs
  subst hs
  cases u? with
  | none => simp at hok
  | some u =>
    cases ai with
    | failure m => simp at hok
    | success chunks =>
      simp only [Bool.and_eq_true, Bool.not_eq_true', decide_eq_false_iff_not] at hok
      obtain ⟨hne, hsome⟩ := hok
      obtain ⟨r, w, hacc⟩ := chatAccum_isSome_exists chunks hsome
      simp only [stepStore, chatHandler]
      rw [if_neg hne]
      by_cases h0 : (storeGet st s).getD [] = [] ∧ u = ""
      · refine ⟨syntheticOpening, r, ?_⟩
        rw [if_pos h0]
        simp only [hacc]
        rw [storeGet_set_self, h0.1]
        rfl
      · refine ⟨u, r, ?_⟩
        rw [if_neg h0]
        simp only [hacc]
        rw [storeGet_set_self, List.append_assoc]
        rfl

theorem stepStore_other (st : Store) (e : Event) (s : String)
    (hs : e.req.sessionId ≠ some s) :
    storeGet (stepStore st e) s = storeGet st s := by
  obtain ⟨⟨sid?, u?⟩, ai⟩ := e
  simp only at hs
  cases sid? with
  | none => rfl
  | some sid =>
    have hne : s ≠ sid := fun h => hs (by rw [h])
    cases u? with
    | none => rfl
    | some u =>
      simp only [stepStore, chatHandler]
      by_cases hsid : sid = ""
      · rw [if_pos hsid]
      · rw [if_neg hsid]
        by_cases h0 : (storeGet st sid).getD [] = [] ∧ u = ""
        · rw [if_pos h0]
          cases ai with
          | failure m => rfl
          | success chunks =>
            rcases hacc : chatAccum "" 0 chunks with _ | ⟨r, w⟩
            · simp only [hacc]
            · simp only [hacc]
              exact storeGet_set_ne st sid s _ hne
        · rw [if_neg h0]
          have hmid : storeGet
              (if (storeGet st sid).isSome then
                storeSet st sid ((storeGet st sid).getD [] ++ [⟨Role.user, u⟩])
               else st) s = storeGet st s := by
            by_cases ha : (storeGet st sid).isSome
            · rw [if_pos ha]; exact storeGet_set_ne st sid s _ hne
            · rw [if_neg ha]
          cases ai with
          | failure m => exact hmid
          | success chunks =>
            rcases hacc : chatAccum "" 0 chunks with _ | ⟨r, w⟩
            · simp only [hacc]; exact hmid
            · simp only [hacc]
              exact storeGet_set_ne st sid s _ hne

/-! ## Trace invariant -/

theorem trace_invariant (evs : List Event) (s : String)
    (hall : ∀ e ∈ evs, e.req.sessionId = some s → eventOK e = true) :
    ∀ st : Store,
      alternatingFrom Role.user ((storeGet st s).getD []) = true →
      ((storeGet st s).getD []).length % 2 = 0 →
      alternatingFrom Role.user ((storeGet (evs.foldl stepStore st) s).getD []) = true ∧
      ((storeGet (evs.foldl stepStore st) s).getD []).length =
        ((storeGet st s).getD []).length +
          2 * (evs.filter (fun e => decide (e.req.sessionId = some s))).length ∧
      ((storeGet (evs.foldl stepStore st) s).getD []).length % 2 = 0 := by
  induction evs with
  | nil =>
    intro st h1 h2
    exact ⟨h1, by simp, h2⟩
  | cons e rest ih =>
    intro st h1 h2
    have hall2 : ∀ e2 ∈ rest, e2.req.sessionId = some s → eventOK e2 = true :=
      fun e2 he => hall e2 (List.mem_cons_of_mem _ he)
    rw [List.foldl_cons]
    by_cases hts : e.req.sessionId = some s
    · have hok := hall e (List.mem_cons_self _ _) hts
      obtain ⟨u, r, heq⟩ := stepStore_ok st e s hok hts
      have h1m : alternatingFrom Role.user ((storeGet (stepStore st e) s).getD []) = true := by
        rw [heq]
        exact alternatingFrom_append_pair _ u r h1 h2
      have hlen : ((storeGet (stepStore st e) s).getD []).length =
          ((storeGet st s).getD []).length + 2 := by
        rw [heq]
        simp
      have h2m : ((storeGet (stepStore st e) s).getD []).length % 2 = 0 := by
        rw [hlen]; omega
      obtain ⟨a1, a2, a3⟩ := ih hall2 (stepStore st e) h1m h2m
      refine ⟨a1, ?_, a3⟩
      rw [a2, hlen, List.filter_cons_of_pos (by simpa using hts), List.length_cons]
      ring
    · have heq := stepStore_other st e s hts
      obtain ⟨a1, a2, a3⟩ := ih hall2 (stepStore st e) (by rw [heq]; exact h1) (by rw [heq]; exact h2)
      refine ⟨a1, ?_, a3⟩
      rw [a2, heq, List.filter_cons_of_neg (by simpa using hts)]

/-! ## Claim theorems -/

/-- C2: for every session, after N successful turns the stored history has
exactly 2N entries whose roles strictly alternate `user`, `model`
(the specification's `assistant`), `user`, `model`, ... starting with
`user`, and every stored turn's role is one of those two roles.  `N` is
the number of trace events addressed to the session, all of which are
required to be successful. -/
theorem chat_history_alternation (evs : List Event) (s : String)
    (hall : ∀ e ∈ evs, e.req.sessionId = some s → eventOK e = true) :
    (historyOf evs s).length =
      2 * (evs.filter (fun e => decide (e.req.sessionId = some s))).length ∧
    alternatingFrom Role.user (historyOf evs s) = true ∧
    ∀ t ∈ historyOf evs s, t.role = Role.user ∨ t.role = Role.model := by
  have h := trace_invariant evs s hall []
    (by simp [storeGet, alternatingFrom]) (by simp [storeGet])
  refine ⟨?_, h.1, ?_⟩
  · simpa [historyOf, runTrace, storeGet] using h.2.1
  · intro t _
    cases htr : t.role with
    | user => exact Or.inl rfl
    | model => exact Or.inr rfl

/-- Witness for C2 on a concrete two-turn trace: an opening call followed
by an ongoing call on session `s1`, both successful. -/
theorem chat_history_alternation_witness :
    (∀ e ∈ c2TraceEvents, e.req.sessionId = some "s1" → eventOK e = true) ∧
    ((historyOf c2TraceEvents "s1").length =
      2 * (c2TraceEvents.filter (fun e => decide (e.req.sessionId = some "s1"))).length ∧
    alternatingFrom Role.user (historyOf c2TraceEvents "s1") = true ∧
    ∀ t ∈ historyOf c2TraceEvents "s1", t.role = Role.user ∨ t.role = Role.model) :=
  ⟨by decide, chat_history_alternation c2TraceEvents "s1" (by decide)⟩

/-- C3: on a first-contact call (empty stored history, empty
`userResponse`), the external service is invoked with an empty prior
history and the fixed synthetic opening as the sole user message, and on
success the committed history is exactly the synthetic `user` turn
followed by the assistant (`model`) reply: length 2, starting with
`user`. -/
theorem initial_phase_call_and_commit (st : Store) (sid : String)
    (chunks : List Chunk) (r : String) (w : Nat) (hsid : sid ≠ "")
    (h0 : (storeGet st sid).getD [] = [])
    (hacc : chatAccum "" 0 chunks = some (r, w)) :
    (chatHandler st ⟨some sid, some ""⟩ (AIResult.success chunks)).call =
      some ⟨[], syntheticOpening⟩ ∧
    storeGet (chatHandler st ⟨some sid, some ""⟩ (AIResult.success chunks)).store sid =
      some [⟨Role.user, syntheticOpening⟩, ⟨Role.model, r⟩] ∧
    (chatHandler st ⟨some sid, some ""⟩ (AIResult.success chunks)).resp.status = 200 := by
  simp only [chatHandler]
  rw [if_neg hsid, if_pos ⟨h0, trivial⟩]
  simp [hacc, storeGet_set_self]

/-- Witness for C3: a fresh session, one well-formed chunk. -/
theorem initial_phase_call_and_commit_witness :
    (chatHandler [] ⟨some "s1", some ""⟩
        (AIResult.success [⟨TextField.fn true "Hi", none⟩])).call =
      some ⟨[], syntheticOpening⟩ ∧
    storeGet (chatHandler [] ⟨some "s1", some ""⟩
        (AIResult.success [⟨TextField.fn true "Hi", none⟩])).store "s1" =
      some [⟨Role.user, syntheticOpening⟩, ⟨Role.model, "Hi"⟩] ∧
    (chatHandler [] ⟨some "s1", some ""⟩
        (AIResult.success [⟨TextField.fn true "Hi", none⟩])).resp.status = 200 :=
  initial_phase_call_and_commit [] "s1" [⟨TextField.fn true "Hi", none⟩] "Hi" 0
    (by decide) rfl rfl

/-- C4: on an ongoing call (non-empty stored history, non-empty
`userResponse`), the history handed to `startChat` is exactly the stored
history with the new `user` turn appended, converted entry by entry by
`toApiTurn` with no loss or reordering, and the new message is
`userResponse`. -/
theorem ongoing_outgoing_history (st : Store) (sid u : String) (ai : AIResult)
    (hsid : sid ≠ "") (hne : (storeGet st sid).getD [] ≠ []) (_hu : u ≠ "") :
    (chatHandler st ⟨some sid, some u⟩ ai).call =
      some ⟨((storeGet st sid).getD [] ++ [(⟨Role.user, u⟩ : Turn)]).map toApiTurn, u⟩ := by
  simp only [chatHandler]
  rw [if_neg hsid, if_neg (fun h => hne h.1)]
  cases ai with
  | failure m => rfl
  | success chunks =>
    rcases hacc : chatAccum "" 0 chunks with _ | ⟨r, w⟩ <;> simp only [hacc]

/-- Witness for C4: an ongoing turn on the stored session of `c1Store`. -/
theorem ongoing_outgoing_history_witness :
    (chatHandler c1Store ⟨some "s1", some "Yes"⟩
        (AIResult.success [⟨TextField.fn true "Great", none⟩])).call =
      some ⟨((storeGet c1Store "s1").getD [] ++ [(⟨Role.user, "Yes"⟩ : Turn)]).map toApiTurn,
        "Yes"⟩ :=
  ongoing_outgoing_history c1Store "s1" "Yes"
    (AIResult.success [⟨TextField.fn true "Great", none⟩])
    (by decide) (by decide) (by decide)

/-- C1 is violated by the code: `currentSessionHistory` aliases the array
stored in `chatHistories`, so the `push` of the new user turn on
server.js line 155 mutates the stored history before the external call;
when the call then fails, the `catch` block leaves the dangling user turn
committed.  Concretely: with session `s1` holding one earlier exchange,
a failing ongoing call returns 500 yet the stored history has gained the
new user turn and is no longer its pre-call value. -/
theorem failed_call_mutates_history :
    (chatHandler c1Store ⟨some "s1", some "I drive a truck"⟩
        (AIResult.failure "network timeout")).resp.status = 500 ∧
    storeGet (chatHandler c1Store ⟨some "s1", some "I drive a truck"⟩
        (AIResult.failure "network timeout")).store "s1" =
      some (c1PreHistory ++ [(⟨Role.user, "I drive a truck"⟩ : Turn)]) ∧
    (chatHandler c1Store ⟨some "s1", some "I drive a truck"⟩
        (AIResult.failure "network timeout")).store ≠ c1Store := by
  refine ⟨rfl, by decide, by decide⟩

/-- C10: a request whose `sessionId` is the empty string is rejected with
400 exactly as if `sessionId` were absent (`!sessionId` is true for the
empty string): same store, same reply, same absence of an external call. -/
theorem empty_session_id_rejected (st : Store) (u : Option String) (ai : AIResult) :
    chatHandler st ⟨some "", u⟩ ai = chatHandler st ⟨none, u⟩ ai ∧
    (chatHandler st ⟨some "", u⟩ ai).resp.status = 400 := by
  cases u with
  | none => exact ⟨rfl, rfl⟩
  | some u => exact ⟨by simp [chatHandler], by simp [chatHandler]⟩

/-- A successful run of the `/chat` accumulation loop produces the
concatenation, in order and with no separators, of the per-fragment
extracted texts, appended to the initial accumulator. -/
theorem chatAccum_eq_concat (cs : List Chunk) : ∀ (acc : String) (w : Nat)
    (r : String) (w2 : Nat), chatAccum acc w cs = some (r, w2) →
    r = cs.foldl (fun a c => a ++ extractedText c) acc := by
  induction cs with
  | nil =>
    intro acc w r w2 h
    simp only [chatAccum, Option.some.injEq, Prod.mk.injEq] at h
    simp [h.1.symm]
  | cons c rest ih =>
    intro acc w r w2 h
    rcases hc : c.text with ⟨b, v⟩ | v | _
    · cases b with
      | true =>
        rw [chatAccum, hc] at h
        have := ih _ _ _ _ h
        simpa [extractedText, hc] using this
      | false =>
        rw [chatAccum, hc] at h
        have := ih _ _ _ _ h
        simpa [extractedText, hc] using this
    · rw [chatAccum, hc] at h
      exact absurd h (by simp)
    · rw [chatAccum, hc] at h
      exact absurd h (by simp)

/-- C6: whenever a call succeeds (the reply body is
`{ response, history }`), the `response` field equals the concatenation,
in arrival order with no inserted separators, of the text extracted from
every streamed fragment, the whole stream being consumed. -/
theorem response_is_fragment_concat (st : Store) (req : ChatRequest)
    (chunks : List Chunk) (r : String) (h : List Turn)
    (hok : (chatHandler st req (AIResult.success chunks)).resp.body = HttpBody.ok r h) :
    r = concatExtract chunks := by
  obtain ⟨sid?, u?⟩ := req
  cases sid? with
  | none => simp [chatHandler] at hok
  | some sid =>
    cases u? with
    | none => simp [chatHandler] at hok
    | some u =>
      simp only [chatHandler] at hok
      by_cases hsid : sid = ""
      · rw [if_pos hsid] at hok
        simp at hok
      · rw [if_neg hsid] at hok
        rcases hacc : chatAccum "" 0 chunks with _ | ⟨r0, w⟩
        · by_cases h0 : (storeGet st sid).getD [] = [] ∧ u = ""
          · rw [if_pos h0] at hok
            simp [hacc] at hok
          · rw [if_neg h0] at hok
            simp [hacc] at hok
        · have hr0 : r0 = concatExtract chunks := chatAccum_eq_concat chunks "" 0 r0 w hacc
          by_cases h0 : (storeGet st sid).getD [] = [] ∧ u = ""
          · rw [if_pos h0] at hok
            simp only [hacc, HttpBody.ok.injEq] at hok
            rw [← hok.1]
            exact hr0
          · rw [if_neg h0] at hok
            simp only [hacc, HttpBody.ok.injEq] at hok
            rw [← hok.1]
            exact hr0

/-- Witness for C6: a three-fragment stream, the middle fragment warned
and contributing empty text; the response is the concatenation. -/
theorem response_is_fragment_concat_witness : "AB" = concatExtract c6Chunks :=
  response_is_fragment_concat [] ⟨some "s1", some ""⟩ c6Chunks "AB" c6Hist rfl

/-- Counterexample to C5: in the `/chat` endpoint the claim is false.
`c5Chunk` is a degraded fragment (its `text()` result is not a string)
whose nested `candidates[0].content.parts[0].text` holds `"recovered"`,
yet the `/chat` loop (server.js lines 168-175) never attempts the
alternate extraction: the successful call returns response `""`, treating
the fragment as empty even though the alternate field was recoverable. -/
theorem chat_skips_alternate_extraction :
    c5Chunk.altText = some "recovered" ∧
    chatAccum "" 0 [c5Chunk] = some ("", 1) ∧
    (chatHandler [] ⟨some "s1", some ""⟩ (AIResult.success [c5Chunk])).resp =
      ⟨200, HttpBody.ok "" [⟨Role.user, syntheticOpening⟩, ⟨Role.model, ""⟩]⟩ := by
  refine ⟨rfl, rfl, by decide⟩

/-- C5 (amended): the alternate `candidates/content/parts` extraction is
performed only by the `/interview` accumulation loop — there, a fragment
whose `text` is neither a function nor a string is logged (the warning
count grows) and contributes the alternate field's text when that nested
path exists and the empty string otherwise, never aborting the loop;
the `/chat` loop performs no alternate extraction: a fragment whose
`text()` result is not a string is logged and contributes the empty
string. -/
theorem fragment_fallback_behavior (acc : String) (w : Nat) (c : Chunk)
    (rest : List Chunk) :
    (c.text = TextField.other →
      interviewAccum acc w (c :: rest) =
        interviewAccum (acc ++ c.altText.getD "") (w + 1) rest) ∧
    (∀ v, c.text = TextField.fn false v →
      chatAccum acc w (c :: rest) = chatAccum acc (w + 1) rest) := by
  constructor
  · intro h
    rw [interviewAccum, h]
    rcases halt : c.altText with _ | t
    · simp [halt]
    · simp [halt]
  · intro v h
    rw [chatAccum, h]

/-- Witness for C5 (amended): an unextractable `/interview` fragment with
a recoverable alternate field, and a warned `/chat` fragment. -/
theorem fragment_fallback_behavior_witness :
    interviewAccum "" 0 [(⟨TextField.other, some "alt"⟩ : Chunk)] = ("alt", 1) ∧
    chatAccum "" 0 [(⟨TextField.fn false "v", none⟩ : Chunk)] = some ("", 1) := by
  constructor
  · have h := (fragment_fallback_behavior "" 0 ⟨TextField.other, some "alt"⟩ []).1 rfl
    rw [h]
    rfl
  · have h := (fragment_fallback_behavior "" 0 ⟨TextField.fn false "v", none⟩ []).2 "v" rfl
    rw [h]
    rfl

/-- Counterexample to C7: the 200 reply of a first-contact call does
expose the synthetic opening utterance to the client — the returned
`history` field's first entry carries its exact text, so it is not true
that no client-visible output of the 200 reply exposes it. -/
theorem initial_reply_exposes_synthetic_turn :
    (chatHandler [] ⟨some "s1", some ""⟩
        (AIResult.success [⟨TextField.fn true "Hello", none⟩])).resp =
      ⟨200, HttpBody.ok "Hello"
        [⟨Role.user, syntheticOpening⟩, ⟨Role.model, "Hello"⟩]⟩ ∧
    syntheticOpening = "Start conversation with Tina." := by
  refine ⟨by decide, rfl⟩

/-- C7 (amended): the synthetic opening utterance is a fixed constant and
the `response` field of the 200 reply is only the assistant's accumulated
stream text, free of the synthetic utterance; the `history` field of the
same reply, however, does contain the synthetic utterance as the text of
its first entry. -/
theorem initial_reply_fields (st : Store) (sid : String) (chunks : List Chunk)
    (r : String) (w : Nat) (hsid : sid ≠ "")
    (h0 : (storeGet st sid).getD [] = [])
    (hacc : chatAccum "" 0 chunks = some (r, w)) :
    (chatHandler st ⟨some sid, some ""⟩ (AIResult.success chunks)).resp =
      ⟨200, HttpBody.ok (concatExtract chunks)
        [⟨Role.user, syntheticOpening⟩, ⟨Role.model, concatExtract chunks⟩]⟩ := by
  have hr : r = concatExtract chunks := chatAccum_eq_concat chunks "" 0 r w hacc
  simp only [chatHandler]
  rw [if_neg hsid, if_pos ⟨h0, trivial⟩]
  simp [hacc, hr]

/-- Witness for C7 (amended). -/
theorem initial_reply_fields_witness :
    (chatHandler [] ⟨some "s2", some ""⟩
        (AIResult.success [⟨TextField.fn true "Welcome", none⟩])).resp =
      ⟨200, HttpBody.ok (concatExtract [⟨TextField.fn true "Welcome", none⟩])
        [⟨Role.user, syntheticOpening⟩,
         ⟨Role.model, concatExtract [⟨TextField.fn true "Welcome", none⟩]⟩]⟩ :=
  initial_reply_fields [] "s2" [⟨TextField.fn true "Welcome", none⟩] "Welcome" 0
    (by decide) rfl rfl

/-- A request that passes validation is answered with 200 or 500, never
400. -/
theorem status_of_valid (st : Store) (sid u : String) (ai : AIResult)
    (hsid : sid ≠ "") :
    (chatHandler st ⟨some sid, some u⟩ ai).resp.status = 200 ∨
    (chatHandler st ⟨some sid, some u⟩ ai).resp.status = 500 := by
  simp only [chatHandler]
  rw [if_neg hsid]
  by_cases h0 : (storeGet st sid).getD [] = [] ∧ u = ""
  · rw [if_pos h0]
    cases ai with
    | failure m => exact Or.inr rfl
    | success chunks =>
      rcases hacc : chatAccum "" 0 chunks with _ | ⟨r, w⟩
      · simp only [hacc]
        exact Or.inr trivial
      · simp only [hacc]
        exact Or.inl trivial
  · rw [if_neg h0]
    cases ai with
    | failure m => exact Or.inr rfl
    | success chunks =>
      rcases hacc : chatAccum "" 0 chunks with _ | ⟨r, w⟩
      · simp only [hacc]
        exact Or.inr trivial
      · simp only [hacc]
        exact Or.inl trivial

/-- Counterexample to C8: a request whose `sessionId` is present (the
empty string) and whose `userResponse` is defined is nevertheless
rejected with 400, so "400 if and only if `sessionId` is missing or
`userResponse` is undefined" fails in the only-if direction. -/
theorem validation_iff_fails_on_empty_sid :
    (chatHandler [] ⟨some "", some "hello"⟩ (AIResult.success [])).resp.status = 400 ∧
    (some "" : Option String) ≠ none ∧ (some "hello" : Option String) ≠ none := by
  refine ⟨rfl, by decide, by decide⟩

/-- C8 (amended): a call fails with 400 and a JSON `error` body if and
only if `sessionId` is missing **or empty** (the source tests the falsy
`!sessionId`) or `userResponse` is undefined; in that case the failure is
decided before any external call (no outgoing call is recorded) and the
store is left untouched. -/
theorem validation_400_iff (st : Store) (req : ChatRequest) (ai : AIResult) :
    ((chatHandler st req ai).resp.status = 400 ↔
      (req.sessionId = none ∨ req.sessionId = some "" ∨ req.userResponse = none)) ∧
    ((req.sessionId = none ∨ req.sessionId = some "" ∨ req.userResponse = none) →
      (chatHandler st req ai).resp.body = HttpBody.err validationError ∧
      (chatHandler st req ai).call = none ∧
      (chatHandler st req ai).store = st) := by
  obtain ⟨sid?, u?⟩ := req
  cases sid? with
  | none =>
    refine ⟨⟨fun _ => Or.inl rfl, fun _ => rfl⟩, fun _ => ⟨rfl, rfl, rfl⟩⟩
  | some sid =>
    cases u? with
    | none =>
      refine ⟨⟨fun _ => Or.inr (Or.inr rfl), fun _ => rfl⟩, fun _ => ⟨rfl, rfl, rfl⟩⟩
    | some u =>
      by_cases hsid : sid = ""
      · subst hsid
        refine ⟨⟨fun _ => Or.inr (Or.inl rfl), fun _ => ?_⟩, fun _ => ⟨?_, ?_, ?_⟩⟩
        · simp [chatHandler]
        · simp [chatHandler]
        · simp [chatHandler]
        · simp [chatHandler]
      · constructor
        · constructor
          · intro h400
            rcases status_of_valid st sid u ai hsid with h | h <;> omega
          · intro hval
            exfalso
            rcases hval with h | h | h
            · exact Option.noConfusion h
            · exact hsid (Option.some.injEq .. ▸ h)
            · exact Option.noConfusion h
        · intro hval
          exfalso
          rcases hval with h | h | h
          · exact Option.noConfusion h
          · exact hsid (Option.some.injEq .. ▸ h)
          · exact Option.noConfusion h

/-- Witness for C8 (amended): a request with a missing `sessionId` is
rejected with 400 before any external call. -/
theorem validation_400_iff_witness :
    (chatHandler [] ⟨none, some "x"⟩ (AIResult.success [])).resp.status = 400 ∧
    (chatHandler [] ⟨none, some "x"⟩ (AIResult.success [])).call = none := by
  have h := validation_400_iff [] ⟨none, some "x"⟩ (AIResult.success [])
  exact ⟨h.1.mpr (Or.inl rfl), (h.2 (Or.inl rfl)).2.1⟩

/-- C9: every failure of the external call is answered with 500 and an
error text chosen by the `catch` block — the distinct reset/refresh
message exactly when `error.message` contains the history-role-ordering
substring, the generic retry suggestion otherwise; an accumulation
failure (non-callable `chunk.text`) is likewise answered with 500 and the
generic retry suggestion. -/
theorem failure_error_selection (st : Store) (sid u m : String)
    (chunks : List Chunk) (hsid : sid ≠ "")
    (hthrow : chatAccum "" 0 chunks = none) :
    (chatHandler st ⟨some sid, some u⟩ (AIResult.failure m)).resp =
      ⟨500, HttpBody.err
        (if strContains m roleOrderingSubstr then historySyncMsg
         else genericFailureMsg)⟩ ∧
    (chatHandler st ⟨some sid, some u⟩ (AIResult.success chunks)).resp =
      ⟨500, HttpBody.err genericFailureMsg⟩ := by
  have hgen : selectErr accumThrowMsg = genericFailureMsg := by decide
  constructor
  · simp only [chatHandler]
    rw [if_neg hsid]
    by_cases h0 : (storeGet st sid).getD [] = [] ∧ u = ""
    · rw [if_pos h0]
      rfl
    · rw [if_neg h0]
      rfl
  · simp only [chatHandler]
    rw [if_neg hsid]
    by_cases h0 : (storeGet st sid).getD [] = [] ∧ u = ""
    · rw [if_pos h0]
      simp only [hthrow]
      rw [hgen]
    · rw [if_neg h0]
      simp only [hthrow]
      rw [hgen]

/-- Witness for C9: a transient failure gets the generic retry text, a
role-ordering failure gets the reset/refresh text, and a stream whose
fragment has a non-callable `text` gets the generic retry text. -/
theorem failure_error_selection_witness :
    (chatHandler [] ⟨some "s1", some "hi"⟩
        (AIResult.failure "network timeout")).resp =
      ⟨500, HttpBody.err genericFailureMsg⟩ ∧
    (chatHandler [] ⟨some "s1", some "hi"⟩
        (AIResult.failure roleOrderingSubstr)).resp =
      ⟨500, HttpBody.err historySyncMsg⟩ ∧
    (chatHandler [] ⟨some "s1", some "hi"⟩
        (AIResult.success [⟨TextField.str "x", none⟩])).resp =
      ⟨500, HttpBody.err genericFailureMsg⟩ := by
  have h1 := failure_error_selection [] "s1" "hi" "network timeout"
    [⟨TextField.str "x", none⟩] (by decide) rfl
  have h2 := failure_error_selection [] "s1" "hi" roleOrderingSubstr
    [⟨TextField.str "x", none⟩] (by decide) rfl
  refine ⟨?_, ?_, h1.2⟩
  · rw [h1.1]
    have : strContains "network timeout" roleOrderingSubstr = false := by decide
    rw [this]
    simp
  · rw [h2.1]
    have : strContains roleOrderingSubstr roleOrderingSubstr = true := by decide
    rw [this]
    simp
